import Mathlib

/-!
Shallow embedding of the `encore` repository's core:
`encore/events/progress_events.py` (the `ProgressManager` state machine and
its Start/Step/End events) and `encore/storage/sqlite_store.py` (the
`SqliteStore` backend).  Python machine behaviour is modelled explicitly:
fallible calls return `Except PyError`, a Python `dict` becomes an
association list, and attribute access on an attribute the constructor
never created is an `AttributeError`.
-/

/-- Python exceptions raised by the embedded code: `KeyError(key)`,
`AttributeError` on a missing attribute, and a plain `Exception(message)`. -/
inductive PyError where
  | keyError (key : String)
  | attributeError (name : String)
  | exception (message : String)
deriving Repr, DecidableEq

/-! ## Progress events (`encore/events/progress_events.py`)

`ProgressStartEvent` carries `operation_id`, `message`, `steps`;
`ProgressStepEvent` carries `operation_id`, `message`, `step`;
`ProgressEndEvent` carries `operation_id`, `message`, `exit_state`.
The `source` field and the `kwargs`/`extra_kwargs` channel (constructor
kwargs merged with per-call extras and attached verbatim to every event)
are not modelled: no claim concerns them and they do not influence the
control flow of any method. -/
inductive PEvent where
  | start (operationId message : String) (steps : Int)
  | stepEv (operationId message : String) (step : Int)
  | endEv (operationId message exitState : String)
deriving Repr, DecidableEq

/-- The mutable state of a `ProgressManager` (progress_events.py, lines
114-144): the constructor arguments kept on `self`, plus `_step_count`
(starts at 0) and `_running` (starts False). -/
structure ProgressManager where
  operationId : String
  message : String
  steps : Int
  stepCount : Int
  running : Bool
deriving Repr, DecidableEq

/-- `ProgressManager.__init__`: stores the arguments and initialises
`_step_count = 0`, `_running = False`. -/
def ProgressManager.mk0 (operationId message : String) (steps : Int) : ProgressManager :=
  ⟨operationId, message, steps, 0, false⟩

/-- `ProgressManager.start` (lines 146-157): unconditionally sets
`_running = True` and emits one Start event with the stored
`operation_id`, `message` and `steps`.  There is no state guard, so the
embedding is total (the method cannot raise). -/
def ProgressManager.start (p : ProgressManager) : ProgressManager × List PEvent :=
  ({ p with running := true }, [.start p.operationId p.message p.steps])

/-- `ProgressManager.step` (lines 159-175): raises
`Exception("ProgressManager.step() called before start()")` if not
`_running`; otherwise emits a Step event whose message defaults to
`self.message` and whose step defaults to `self._step_count`, then
increments `_step_count` (after emission, and also when an explicit step
was supplied). -/
def ProgressManager.step (p : ProgressManager) (message : Option String)
    (stepArg : Option Int) : Except PyError (ProgressManager × List PEvent) :=
  if !p.running then
    .error (.exception "ProgressManager.step() called before start()")
  else
    .ok ({ p with stepCount := p.stepCount + 1 },
      [.stepEv p.operationId (message.getD p.message) (stepArg.getD p.stepCount)])

/-- `ProgressManager.end` (lines 177-191): raises
`Exception("ProgressManager.end() called before start()")` if not
`_running`; otherwise emits an End event (message defaulting to
`self.message`, exit state defaulting to `'normal'` at the call sites)
and sets `_running = False`. -/
def ProgressManager.endOp (p : ProgressManager) (message : Option String)
    (exitState : String) : Except PyError (ProgressManager × List PEvent) :=
  if !p.running then
    .error (.exception "ProgressManager.end() called before start()")
  else
    .ok ({ p with running := false },
      [.endEv p.operationId (message.getD p.message) exitState])

/-- `ProgressManager.__exit__` (lines 203-210): if still `_running`, calls
`self.end(str(exc_value), 'exception')` when an exception is leaving the
block, else `self.end()`.  The method returns `None` (falsy), so the
context-manager protocol never suppresses the exception: the third
component is that suppression flag, always `false`.  `excValue` is the
`str()` of the in-flight exception, or `none` on normal exit. -/
def ProgressManager.exitScope (p : ProgressManager) (excValue : Option String) :
    ProgressManager × List PEvent × Bool :=
  if p.running then
    match excValue with
    | some e =>
      match p.endOp (some e) "exception" with
      | .ok (p', evs) => (p', evs, false)
      | .error _ => (p, [], false)
    | none =>
      match p.endOp none "normal" with
      | .ok (p', evs) => (p', evs, false)
      | .error _ => (p, [], false)
  else
    (p, [], false)

/-- The call sequence `start(); step(); step(); end()` on a manager,
collecting all emitted events in order (used to state claim C5). -/
def ProgressManager.startStepStepEnd (p : ProgressManager) :
    Except PyError (List PEvent) :=
  let (p1, e1) := p.start
  match p1.step none none with
  | .error e => .error e
  | .ok (p2, e2) =>
    match p2.step none none with
    | .error e => .error e
    | .ok (p3, e3) =>
      match p3.endOp none "normal" with
      | .error e => .error e
      | .ok (_, e4) => .ok (e1 ++ e2 ++ e3 ++ e4)

/-- Iterate `step` over a list of (message, explicit-step) argument pairs,
returning the final manager state (used to state claim C10). -/
def ProgressManager.iterSteps (p : ProgressManager) :
    List (Option String × Option Int) → Except PyError ProgressManager
  | [] => .ok p
  | a :: rest =>
    match p.step a.1 a.2 with
    | .error e => .error e
    | .ok (p', _) => p'.iterSteps rest

/-! ## Metadata values (`encore/storage/sqlite_store.py`)

A metadata dictionary maps string field names to Python values.  `Value`
covers the scalar values the store traffics in; `Value.pyNone` is Python's
`None`, which matters because `dict.get(k)` returns `None` for an absent
key and `query` compares that result with `==`. -/
inductive Value where
  | pyNone
  | int (n : Int)
  | str (s : String)
  | bool (b : Bool)
deriving Repr, DecidableEq

/-- A Python metadata dict, as an association list of fields to values
(field names unique in any dict produced by Python). -/
abbrev Metadata : Type := List (String × Value)

/-- `metadata[field]` as a partial lookup: `some v` when the field is
present, `none` when absent (Python would raise `KeyError`). -/
def metaFind (m : Metadata) (field : String) : Option Value :=
  (m.find? (fun p => p.1 == field)).map (fun p => p.2)

/-- Python `metadata.get(field)`: the stored value, or `None` when the
field is absent. -/
def metaGet (m : Metadata) (field : String) : Value :=
  (metaFind m field).getD .pyNone

/-- `dict((mk, metadata[mk]) for mk in select if mk in metadata)`: the
select-filtering comprehension used by `get_metadata` (line 268) and
`query` (line 580) — it walks `select` and keeps only the requested
fields that are present in the metadata. -/
def selectKeys (m : Metadata) (select : List String) : Metadata :=
  select.filterMap (fun mk => (metaFind m mk).map (fun v => (mk, v)))

/-- A byte payload (the `data` column / a `cStringIO` stream's contents). -/
abbrev Bytes : Type := List Nat

/-- One row of the sqlite table (sqlite_store.py schema, lines 67-73):
`key text primary key, metadata dict, data blob`. -/
structure Row where
  key : String
  metadata : Metadata
  data : Bytes
deriving Repr, DecidableEq

/-! ## SqliteStore

The observable state of a connected `SqliteStore` is its table of rows.
`__init__` (lines 46-51) sets only `event_manager`, `location`, `table`
and `_connection`; the attributes `_data` and `_metadata` that `set`
(line 163), `set_data` (line 288), `delete` (line 177), `exists`
(line 199), `set_metadata` and `update_metadata` dereference are never
assigned anywhere in the class, so every such dereference raises
`AttributeError` on a real instance.  The embedding therefore carries no
`_data`/`_metadata` component and those methods return the
`AttributeError` that the first dereference raises. -/
structure SqliteStore where
  location : String
  tableName : String
  rows : List Row
deriving Repr, DecidableEq

/-- `SqliteStore.connect` on a fresh location: creates the (empty) table,
so the observable state is an empty row list. -/
def SqliteStore.connected (location tableName : String) : SqliteStore :=
  ⟨location, tableName, []⟩

/-- `SqliteStore.get` (lines 102-135): select the row whose key matches;
zero rows raises `KeyError(key)`, otherwise the row's data (as a stream)
and deserialized metadata are returned. -/
def SqliteStore.get (s : SqliteStore) (key : String) :
    Except PyError (Bytes × Metadata) :=
  match s.rows.find? (fun r => r.key == key) with
  | none => .error (.keyError key)
  | some r => .ok (r.data, r.metadata)

/-- `SqliteStore.set` (lines 138-164): its first statement,
`self._metadata[key] = metadata.copy()` (line 163), reads the attribute
`_metadata`, which `__init__` never created and nothing in the class ever
assigns — so the call raises `AttributeError('_metadata')` before
touching the table.  (`self.set_data`, line 164, is never reached.) -/
def SqliteStore.set (s : SqliteStore) (key : String)
    (value : Bytes × Metadata) : Except PyError SqliteStore :=
  let _ := s
  let _ := key
  let _ := value
  .error (.attributeError "_metadata")

/-- `SqliteStore.delete` (lines 166-179): its first statement,
`del self._data[key]` (line 177), reads the never-assigned attribute
`_data`, so the call raises `AttributeError('_data')` for every key —
present or absent — and no row is removed and no event emitted. -/
def SqliteStore.delete (s : SqliteStore) (key : String) :
    Except PyError SqliteStore :=
  let _ := s
  let _ := key
  .error (.attributeError "_data")

/-- `SqliteStore.exists` (lines 182-199): evaluates
`key in self._data and key in self._metadata`, and the read of the
never-assigned attribute `_data` raises `AttributeError('_data')` instead
of returning a boolean. -/
def SqliteStore.exists (s : SqliteStore) (key : String) :
    Except PyError Bool :=
  let _ := s
  let _ := key
  .error (.attributeError "_data")

/-- `SqliteStore.get_metadata` (lines 230-270): select the row whose key
matches; zero rows raises `KeyError(key)`; with `select` given, returns
`dict((mk, metadata[mk]) for mk in select if mk in metadata)`, else a
copy of the full metadata. -/
def SqliteStore.get_metadata (s : SqliteStore) (key : String)
    (select : Option (List String)) : Except PyError Metadata :=
  match s.rows.find? (fun r => r.key == key) with
  | none => .error (.keyError key)
  | some r =>
    match select with
    | some sel => .ok (selectKeys r.metadata sel)
    | none => .ok r.metadata

/-- `SqliteStore.query` (lines 549-585): full scan of the table; a row is
yielded iff `all(metadata.get(arg) == value for arg, value in
kwargs.items())`; the yielded metadata is select-filtered when `select`
is given, else a copy of the row's metadata. -/
def SqliteStore.query (s : SqliteStore) (select : Option (List String))
    (kwargs : List (String × Value)) : List (String × Metadata) :=
  match select with
  | some sel =>
    (s.rows.filter (fun r => kwargs.all (fun kv => metaGet r.metadata kv.1 == kv.2))).map
      (fun r => (r.key, selectKeys r.metadata sel))
  | none =>
    (s.rows.filter (fun r => kwargs.all (fun kv => metaGet r.metadata kv.1 == kv.2))).map
      (fun r => (r.key, r.metadata))

/-! ## Generic batch operations

`SqliteStore.multiset` (sqlite_store.py lines 434-460) only delegates to
`super().multiset`, i.e. `AbstractStore.multiset`, whose module
(`encore/storage/abstract_store.py`) is not part of the given sources.
It is modelled from the spec, over the atomic store contract of the spec
(also modelled, since the concrete `SqliteStore.set` is the acknowledged
broken path). -/

/-- Modelled from the spec: the observable state behind the Store
Contract's atomic operations (§4.3) — each key maps to one
(data, metadata) pair.  The most recent `set` for a key wins, so the
state is a history list read front-first. -/
structure GenericStore where
  entries : List (String × Bytes × Metadata)
deriving Repr, DecidableEq

/-- Modelled from the spec: the atomic `set(key, (data, metadata))` of
§4.3 — stores the pair under the key, replacing any previous binding. -/
def GenericStore.set (s : GenericStore) (key : String)
    (value : Bytes × Metadata) : GenericStore :=
  ⟨(key, value) :: s.entries⟩

/-- Modelled from the spec: the atomic `get(key)` of §4.3 — the most
recently set (data, metadata) pair, or the NotFound failure (`KeyError`)
when the key is absent. -/
def GenericStore.get (s : GenericStore) (key : String) :
    Except PyError (Bytes × Metadata) :=
  match s.entries.find? (fun e => e.1 == key) with
  | some e => .ok e.2
  | none => .error (.keyError key)

/-- Modelled from the spec: `AbstractStore.multiset(keys, values)`
(§4.3/§4.3's generic strategy, missing from the given sources) — pair
the inputs positionally like `zip()`, silently dropping the excess tail
of the longer sequence, and call the singular `set` once per pair. -/
def GenericStore.multiset (s : GenericStore) (keys : List String)
    (values : List (Bytes × Metadata)) : GenericStore :=
  (keys.zip values).foldl (fun st kv => st.set kv.1 kv.2) s

/-- A connected store whose table holds one row: key `"k"`, metadata
`{'a': 1}`, data `b'xyz'` (concrete fixture for evaluating claims). -/
def storeWithK : SqliteStore :=
  ⟨":memory:", "store", [⟨"k", [("a", Value.int 1)], [120, 121, 122]⟩]⟩

/-! ## Theorems: ProgressManager claims -/

/-- Helper: with the manager Running, `iterSteps` succeeds and each call
adds exactly one to `_step_count`, leaving every other field unchanged. -/
theorem ProgressManager.iterSteps_running (p : ProgressManager)
    (args : List (Option String × Option Int)) (h : p.running = true) :
    p.iterSteps args = .ok { p with stepCount := p.stepCount + args.length } := by
  induction args generalizing p with
  | nil => simp [iterSteps]
  | cons a rest ih =>
    simp only [iterSteps, step, h, Bool.not_true, Bool.false_eq_true, if_false]
    rw [ih _ (by simp [h])]
    simp only [List.length_cons]
    congr 1
    simp
    omega

/-- C3: on scope exit of a Running operation, an in-flight exception
yields exactly one End event with exit state `exception` and the
exception's text as message, and the suppression flag is `false` (the
original exception propagates unchanged); a normal exit yields exactly
one End event with exit state `normal`. -/
theorem C3_scope_exit (p : ProgressManager) (e : String) (h : p.running = true) :
    p.exitScope (some e) =
      ({ p with running := false }, [.endEv p.operationId e "exception"], false) ∧
    p.exitScope none =
      ({ p with running := false }, [.endEv p.operationId p.message "normal"], false) := by
  constructor <;> simp [ProgressManager.exitScope, ProgressManager.endOp, h]

/-- C3 witness: a started manager, exiting with exception text "boom" and
exiting normally. -/
theorem C3_scope_exit_witness :
    ((ProgressManager.mk0 "op" "work" (-1)).start.1).exitScope (some "boom") =
      ({ (ProgressManager.mk0 "op" "work" (-1)).start.1 with running := false },
        [.endEv "op" "boom" "exception"], false) ∧
    ((ProgressManager.mk0 "op" "work" (-1)).start.1).exitScope none =
      ({ (ProgressManager.mk0 "op" "work" (-1)).start.1 with running := false },
        [.endEv "op" "work" "normal"], false) :=
  C3_scope_exit ((ProgressManager.mk0 "op" "work" (-1)).start.1) "boom" rfl

/-- C4: when the operation is not Running, `step` and `end` both raise the
invalid-state error (and, the error carrying no events, emit nothing);
when it is Running, neither call raises. -/
theorem C4_invalid_state (p : ProgressManager) (m : Option String) (st : Option Int)
    (es : String) :
    (p.running = false →
      p.step m st = .error (.exception "ProgressManager.step() called before start()") ∧
      p.endOp m es = .error (.exception "ProgressManager.end() called before start()")) ∧
    (p.running = true →
      (∃ r, p.step m st = .ok r) ∧ (∃ r, p.endOp m es = .ok r)) := by
  constructor <;> intro h <;> simp [ProgressManager.step, ProgressManager.endOp, h]

/-- C4 witness: a fresh (not Running) manager raises on `step`; a started
one does not. -/
theorem C4_invalid_state_witness :
    (ProgressManager.mk0 "op" "work" 3).step none none =
      .error (.exception "ProgressManager.step() called before start()") ∧
    (∃ r, ((ProgressManager.mk0 "op" "work" 3).start.1).step none none = .ok r) :=
  ⟨((C4_invalid_state (ProgressManager.mk0 "op" "work" 3) none none "normal").1 rfl).1,
   ((C4_invalid_state ((ProgressManager.mk0 "op" "work" 3).start.1) none none
      "normal").2 rfl).1⟩

/-- C5: on a freshly created manager, `start(); step(); step(); end()`
emits exactly one Start, then Step events with steps 0 and 1 (the
internal counter starts at 0 and is incremented after each emission),
then one End with exit state `normal`. -/
theorem C5_start_step_step_end (opId msg : String) (steps : Int) :
    (ProgressManager.mk0 opId msg steps).startStepStepEnd =
      .ok [.start opId msg steps, .stepEv opId msg 0, .stepEv opId msg 1,
        .endEv opId msg "normal"] := rfl

/-- C9: `start()` never raises, in every state: it unconditionally sets
the state to Running and emits one Start event, so two consecutive
`start()` calls emit two Start events. -/
theorem C9_start_unconditional (p : ProgressManager) :
    (p.start).1.running = true ∧
    (p.start).2 ++ ((p.start).1.start).2 =
      [.start p.operationId p.message p.steps,
       .start p.operationId p.message p.steps] :=
  ⟨rfl, rfl⟩

/-- C10: while Running, every `step()` call — explicit step number or not —
adds exactly one to the internal counter, and after `n` such calls the
next `step()` with the number omitted emits a Step event carrying
`stepCount + n` (so `n`, from a freshly started manager). -/
theorem C10_step_counter (p : ProgressManager)
    (args : List (Option String × Option Int)) (h : p.running = true) :
    (∀ m st, p.step m st =
      .ok ({ p with stepCount := p.stepCount + 1 },
        [.stepEv p.operationId (m.getD p.message) (st.getD p.stepCount)])) ∧
    p.iterSteps args = .ok { p with stepCount := p.stepCount + args.length } ∧
    ({ p with stepCount := p.stepCount + args.length } : ProgressManager).step none none =
      .ok ({ p with stepCount := p.stepCount + args.length + 1 },
        [.stepEv p.operationId p.message (p.stepCount + args.length)]) := by
  refine ⟨fun m st => ?_, p.iterSteps_running args h, ?_⟩
  · simp [ProgressManager.step, h]
  · simp [ProgressManager.step, h]

/-- C10 witness: a started manager stepped twice (once with an explicit
step number 10) ends with counter 2, and the next implicit step carries
step = 2. -/
theorem C10_step_counter_witness :
    ((ProgressManager.mk0 "op" "work" 5).start.1).iterSteps
        [(none, some 10), (none, none)] =
      .ok { (ProgressManager.mk0 "op" "work" 5).start.1 with
        stepCount := ((ProgressManager.mk0 "op" "work" 5).start.1).stepCount +
          ([((none : Option String), some (10 : Int)), (none, none)].length : Int) } ∧
    (ProgressManager.mk ((ProgressManager.mk0 "op" "work" 5).start.1).operationId
        ((ProgressManager.mk0 "op" "work" 5).start.1).message
        ((ProgressManager.mk0 "op" "work" 5).start.1).steps 2 true).step none none =
      .ok (ProgressManager.mk "op" "work" 5 3 true, [.stepEv "op" "work" 2]) := by
  refine ⟨(C10_step_counter _ _ rfl).2.1, ?_⟩
  have h := ((C10_step_counter ((ProgressManager.mk0 "op" "work" 5).start.1)
    [(none, some 10), (none, none)] rfl).2.2)
  simpa using h

/-! ## Theorems: SqliteStore claims -/

/-- C1 (code bug): the round-trip `set(k, (data, meta)); get(k) == (data,
meta)` cannot hold on `SqliteStore`: `set` dereferences the never-created
attribute `_metadata` (line 163) and raises `AttributeError` without
writing the row, so a subsequent `get` still raises `KeyError`.  Shown on
a freshly connected store with key `"k"`, data `b'\x01\x02\x03'` and
metadata `{'a': 1}`. -/
theorem C1_set_then_get_fails :
    (SqliteStore.connected ":memory:" "store").set "k"
        ([1, 2, 3], [("a", Value.int 1)]) = .error (.attributeError "_metadata") ∧
    (SqliteStore.connected ":memory:" "store").get "k" = .error (.keyError "k") :=
  ⟨rfl, rfl⟩

/-- C7 (code bug): `delete` dereferences the never-created attribute
`_data` (line 177) and raises `AttributeError` for every key — for the
present key `"k"` (no row removed, no `StoreDeleteEvent`), and for the
absent key `"missing"` (an `AttributeError`, not the claimed not-found
failure); `exists` (line 199) likewise raises instead of returning a
boolean. -/
theorem C7_delete_raises_attribute_error :
    storeWithK.delete "k" = .error (.attributeError "_data") ∧
    storeWithK.delete "missing" = .error (.attributeError "_data") ∧
    storeWithK.exists "k" = .error (.attributeError "_data") :=
  ⟨rfl, rfl, rfl⟩

/-- Helper: membership in the select-filtering comprehension — a pair is
kept iff its field was requested and is present in the metadata. -/
theorem mem_selectKeys (m : Metadata) (sel : List String) (f : String) (v : Value) :
    (f, v) ∈ selectKeys m sel ↔ f ∈ sel ∧ metaFind m f = some v := by
  simp only [selectKeys, List.mem_filterMap, Option.map_eq_some']
  constructor
  · rintro ⟨mk, hmk, w, hw, hpair⟩
    cases hpair
    exact ⟨hmk, hw⟩
  · rintro ⟨hf, hv⟩
    exact ⟨f, hf, v, hv, rfl⟩

/-- C8: `get_metadata(k, select)` on a present key returns exactly the
requested fields that are present in the stored metadata (a missing
requested field is silently omitted, never an error), and on an absent
key fails with `KeyError`. -/
theorem C8_get_metadata (s : SqliteStore) (key : String) (sel : List String) :
    (s.rows.find? (fun r => r.key == key) = none →
      s.get_metadata key (some sel) = .error (.keyError key)) ∧
    (∀ r, s.rows.find? (fun r => r.key == key) = some r →
      s.get_metadata key (some sel) = .ok (selectKeys r.metadata sel) ∧
      ∀ f v, (f, v) ∈ selectKeys r.metadata sel ↔
        f ∈ sel ∧ metaFind r.metadata f = some v) := by
  refine ⟨fun h => ?_, fun r h => ⟨?_, fun f v => mem_selectKeys _ _ _ _⟩⟩
  · simp [SqliteStore.get_metadata, h]
  · simp [SqliteStore.get_metadata, h]

/-- C8 witness: on the one-row fixture, requesting fields `"a"` (present)
and `"zz"` (absent) returns `{'a': 1}`; on an empty store the same call
raises `KeyError`. -/
theorem C8_get_metadata_witness :
    storeWithK.get_metadata "k" (some ["a", "zz"]) =
      .ok (selectKeys [("a", Value.int 1)] ["a", "zz"]) ∧
    (SqliteStore.connected ":memory:" "store").get_metadata "k" (some ["a", "zz"]) =
      .error (.keyError "k") ∧
    selectKeys [("a", Value.int 1)] ["a", "zz"] = [("a", Value.int 1)] :=
  ⟨((C8_get_metadata storeWithK "k" ["a", "zz"]).2
      ⟨"k", [("a", Value.int 1)], [120, 121, 122]⟩ rfl).1,
   (C8_get_metadata (SqliteStore.connected ":memory:" "store") "k" ["a", "zz"]).1 rfl,
   rfl⟩

/-- C6: `query` yields exactly the (key, metadata) pairs of the rows whose
deserialized metadata satisfies `metadata.get(field) == value` for every
supplied predicate (exact equality only), metadata filtered to the
`select` fields when given; with no predicates every row is yielded. -/
theorem C6_query (s : SqliteStore) (kwargs : List (String × Value))
    (sel : List String) (k : String) (md : Metadata) :
    ((k, md) ∈ s.query none kwargs ↔
      ∃ r ∈ s.rows, r.key = k ∧ md = r.metadata ∧
        ∀ fv ∈ kwargs, metaGet r.metadata fv.1 = fv.2) ∧
    ((k, md) ∈ s.query (some sel) kwargs ↔
      ∃ r ∈ s.rows, r.key = k ∧ md = selectKeys r.metadata sel ∧
        ∀ fv ∈ kwargs, metaGet r.metadata fv.1 = fv.2) ∧
    s.query none [] = s.rows.map (fun r => (r.key, r.metadata)) := by
  refine ⟨?_, ?_, ?_⟩
  · simp only [SqliteStore.query, List.mem_map, List.mem_filter, List.all_eq_true,
      beq_iff_eq, Prod.mk.injEq, decide_eq_true_eq]
    constructor
    · rintro ⟨r, ⟨hr, hall⟩, hk, hmd⟩
      exact ⟨r, hr, hk, hmd.symm, fun fv hfv => hall fv hfv⟩
    · rintro ⟨r, hr, hk, hmd, hall⟩
      exact ⟨r, ⟨hr, fun fv hfv => hall fv hfv⟩, hk, hmd.symm⟩
  · simp only [SqliteStore.query, List.mem_map, List.mem_filter, List.all_eq_true,
      beq_iff_eq, Prod.mk.injEq, decide_eq_true_eq]
    constructor
    · rintro ⟨r, ⟨hr, hall⟩, hk, hmd⟩
      exact ⟨r, hr, hk, hmd.symm, fun fv hfv => hall fv hfv⟩
    · rintro ⟨r, hr, hk, hmd, hall⟩
      exact ⟨r, ⟨hr, fun fv hfv => hall fv hfv⟩, hk, hmd.symm⟩
  · simp [SqliteStore.query]

/-! ## Theorems: generic multiset (C2) -/

/-- Helper: folding `set` over a list of (key, value) pairs prepends the
pairs in reverse order to the entry history. -/
theorem GenericStore.foldl_set_entries (l : List (String × Bytes × Metadata))
    (s : GenericStore) :
    (l.foldl (fun st kv => st.set kv.1 kv.2) s).entries = l.reverse ++ s.entries := by
  induction l generalizing s with
  | nil => rfl
  | cons a t ih =>
    simp only [List.foldl_cons, ih, List.reverse_cons, List.append_assoc,
      List.singleton_append]
    rfl

/-- Helper: in an association list whose first components are distinct,
`find?` on a key retrieves exactly the member pair carrying that key. -/
theorem find?_eq_of_nodup_fst {β : Type} (l : List (String × β)) (k : String) (v : β)
    (hnd : (l.map Prod.fst).Nodup) (hmem : (k, v) ∈ l) :
    l.find? (fun e => e.1 == k) = some (k, v) := by
  induction l with
  | nil => cases hmem
  | cons a t ih =>
    simp only [List.map_cons, List.nodup_cons] at hnd
    rcases List.mem_cons.mp hmem with h | h
    · subst h
      exact List.find?_cons_of_pos _ (by simp)
    · have hak : a.1 ≠ k := by
        intro hak
        exact hnd.1 (hak ▸ List.mem_map_of_mem Prod.fst h)
      have hpa : (a.1 == k) = false := by simpa using hak
      simp only [List.find?_cons, hpa]
      exact ih hnd.2 h

/-- Helper: `zip` only consumes the common prefix of its two arguments —
the `zip`-truncation underlying the multiset batch policy. -/
theorem zip_eq_zip_take {α β : Type} (l₁ : List α) (l₂ : List β) :
    l₁.zip l₂ = (l₁.take (min l₁.length l₂.length)).zip
      (l₂.take (min l₁.length l₂.length)) := by
  have h : (l₁.zip l₂).take (min l₁.length l₂.length) = l₁.zip l₂ :=
    List.take_of_length_le (by simp)
  rw [← h, List.zip_eq_zipWith, List.take_zipWith, ← List.zip_eq_zipWith]

/-- C2: `multiset(keys, values)` pairs the inputs positionally and
truncates to the shorter sequence — it equals the multiset of the
truncated inputs (no error for the excess tail), a key beyond the
shorter length that was never otherwise set still raises NotFound on
`get`, and each position `i` of the shorter length is set to exactly
`values[i]` (stated for distinct keys). -/
theorem C2_multiset_zip_truncation (s : GenericStore) (keys : List String)
    (values : List (Bytes × Metadata)) (k : String)
    (hnd : keys.Nodup)
    (hk : k ∉ keys.take (min keys.length values.length))
    (hg : s.get k = .error (.keyError k)) :
    s.multiset keys values =
      s.multiset (keys.take (min keys.length values.length))
        (values.take (min keys.length values.length)) ∧
    (s.multiset keys values).get k = .error (.keyError k) ∧
    ∀ i (hi : i < min keys.length values.length),
      (s.multiset keys values).get
          (keys.get ⟨i, Nat.lt_of_lt_of_le hi (Nat.min_le_left _ _)⟩) =
        .ok (values.get ⟨i, Nat.lt_of_lt_of_le hi (Nat.min_le_right _ _)⟩) := by
  have hzip : keys.zip values = (keys.take (min keys.length values.length)).zip
      (values.take (min keys.length values.length)) := zip_eq_zip_take keys values
  have hfst : (keys.zip values).map Prod.fst =
      keys.take (min keys.length values.length) := by
    rw [hzip, List.map_fst_zip]
    simp only [List.length_take]
    omega
  have hent : (s.multiset keys values).entries =
      (keys.zip values).reverse ++ s.entries :=
    GenericStore.foldl_set_entries _ _
  refine ⟨?_, ?_, ?_⟩
  · simp only [GenericStore.multiset, hzip]
  · have hsent : s.entries.find? (fun e => e.1 == k) = none := by
      rcases h : s.entries.find? (fun e => e.1 == k) with _ | e
      · exact h
      · simp [GenericStore.get, h] at hg
    have hnone : ((keys.zip values).reverse).find? (fun e => e.1 == k) = none := by
      rw [List.find?_eq_none]
      intro x hx
      simp only [beq_iff_eq]
      intro hxk
      have hx1 : x.1 ∈ (keys.zip values).map Prod.fst :=
        List.mem_map_of_mem Prod.fst (List.mem_reverse.mp hx)
      rw [hfst] at hx1
      exact hk (hxk ▸ hx1)
    simp only [GenericStore.get, hent, List.find?_append, hnone, hsent, Option.or_none]
  · intro i hi
    have hifst : i < (keys.zip values).length := by
      simp only [List.length_zip]
      exact hi
    have hpair : (keys.zip values).get ⟨i, hifst⟩ =
        (keys.get ⟨i, Nat.lt_of_lt_of_le hi (Nat.min_le_left _ _)⟩,
         values.get ⟨i, Nat.lt_of_lt_of_le hi (Nat.min_le_right _ _)⟩) := by
      simp [List.get_eq_getElem, List.getElem_zip]
    have hmem : (keys.get ⟨i, Nat.lt_of_lt_of_le hi (Nat.min_le_left _ _)⟩,
        values.get ⟨i, Nat.lt_of_lt_of_le hi (Nat.min_le_right _ _)⟩) ∈
        (keys.zip values).reverse := by
      rw [List.mem_reverse, ← hpair]
      exact List.get_mem _ _ _
    have hndr : (((keys.zip values).reverse).map Prod.fst).Nodup := by
      rw [List.map_reverse, hfst, List.nodup_reverse]
      exact (List.take_sublist _ _).nodup hnd
    have hfind := find?_eq_of_nodup_fst _ _ _ hndr hmem
    simp only [GenericStore.get, hent, List.find?_append, hfind, Option.or_some]

/-- C2 witness: the spec's length-mismatch example — three keys, two
values: the batch equals the truncated batch, `k1` and `k2` receive `v1`
and `v2`, and the never-otherwise-set excess key `k3` still raises
NotFound on `get`. -/
theorem C2_multiset_zip_truncation_witness :
    (GenericStore.mk []).multiset ["k1", "k2", "k3"]
        [([1], [("a", Value.int 1)]), ([2], [("b", Value.int 2)])] =
      (GenericStore.mk []).multiset ["k1", "k2"]
        [([1], [("a", Value.int 1)]), ([2], [("b", Value.int 2)])] ∧
    ((GenericStore.mk []).multiset ["k1", "k2", "k3"]
        [([1], [("a", Value.int 1)]), ([2], [("b", Value.int 2)])]).get "k1" =
      .ok ([1], [("a", Value.int 1)]) ∧
    ((GenericStore.mk []).multiset ["k1", "k2", "k3"]
        [([1], [("a", Value.int 1)]), ([2], [("b", Value.int 2)])]).get "k2" =
      .ok ([2], [("b", Value.int 2)]) ∧
    ((GenericStore.mk []).multiset ["k1", "k2", "k3"]
        [([1], [("a", Value.int 1)]), ([2], [("b", Value.int 2)])]).get "k3" =
      .error (.keyError "k3") := by
  have h := C2_multiset_zip_truncation (GenericStore.mk []) ["k1", "k2", "k3"]
    [([1], [("a", Value.int 1)]), ([2], [("b", Value.int 2)])] "k3"
    (by decide) (by decide) rfl
  exact ⟨h.1, h.2.2 0 (by decide), h.2.2 1 (by decide), h.2.1⟩
